import Mathlib

/-!
Shallow embedding of the work-journal program (src/journal_script.py):
the SQLite-backed `JournalDatabase` entry store, the silence detector,
the keyword extractor, and the "record new audio entry" pipeline.

Modelling conventions:
* the `entries` table is a `List Entry` kept in rowid (insertion) order;
* `id INTEGER PRIMARY KEY` is a rowid alias: SQLite assigns to a fresh
  insert one more than the largest rowid currently in the table
  (1 for an empty table), and `cursor.lastrowid` returns it;
* `ORDER BY timestamp DESC` compares TEXT values with the default BINARY
  collation, i.e. lexicographically on the byte sequence, descending;
* audio samples are rationals (the floats in [-1, 1] of the recording);
* `np.max` over an empty array raises, so it is `Option`-valued here;
* sqlite3 UPDATE / DELETE statements that match zero rows complete
  normally; the `Except` result type gives a place for a raised error,
  and the code never produces one.
-/

namespace WorkJournal

/-- One row of the `entries` table (`id, timestamp, text, tags`);
`tags` is stored via `json.dumps` / `json.loads`, which round-trips a
list of strings, so it is kept as a `List String`. -/
structure Entry where
  id : Nat
  timestamp : String
  text : String
  tags : List String
deriving DecidableEq

/-- The rowid SQLite picks for a fresh `INSERT` into `entries`:
one more than the largest id in the table, 1 when the table is empty. -/
def nextRowId (s : List Entry) : Nat :=
  (s.map Entry.id).foldr max 0 + 1

/-- `JournalDatabase.save_entry`: INSERT the row and return
`cursor.lastrowid`.  The Python default `timestamp=None` fills in the
current clock time; the clock reading is passed in explicitly here. -/
def save_entry (s : List Entry) (text : String) (tags : List String)
    (timestamp : String) : Nat × List Entry :=
  let newId := nextRowId s
  (newId, s ++ [⟨newId, timestamp, text, tags⟩])

/-- Lexicographic `≤` on character sequences: SQLite's default BINARY
collation on TEXT (byte order, which on the ASCII timestamps of this
program coincides with codepoint order). -/
def bytesLe : List Char → List Char → Bool
  | [], _ => true
  | _ :: _, [] => false
  | a :: as, b :: bs => if a = b then bytesLe as bs else decide (a < b)

theorem bytesLe_total : ∀ as bs, bytesLe as bs = true ∨ bytesLe bs as = true
  | [], _ => Or.inl rfl
  | _ :: _, [] => Or.inr rfl
  | a :: as, b :: bs => by
    by_cases h : a = b
    · subst h
      simpa [bytesLe] using bytesLe_total as bs
    · rcases lt_or_gt_of_ne h with hlt | hgt
      · exact Or.inl (by simp [bytesLe, h, hlt])
      · exact Or.inr (by simp [bytesLe, Ne.symm h, hgt])

theorem bytesLe_trans : ∀ as bs cs, bytesLe as bs = true →
    bytesLe bs cs = true → bytesLe as cs = true
  | [], _, _, _, _ => rfl
  | _ :: _, [], _, h, _ => by simp [bytesLe] at h
  | _ :: _, _ :: _, [], _, h => by simp [bytesLe] at h
  | a :: as, b :: bs, c :: cs, h1, h2 => by
    by_cases hab : a = b <;> by_cases hbc : b = c
    · subst hab; subst hbc
      simp only [bytesLe, if_pos rfl] at h1 h2 ⊢
      exact bytesLe_trans as bs cs h1 h2
    · subst hab
      simpa [bytesLe, hbc] using h2
    · subst hbc
      simpa [bytesLe, hab] using h1
    · simp only [bytesLe, if_neg hab, decide_eq_true_eq] at h1
      simp only [bytesLe, if_neg hbc, decide_eq_true_eq] at h2
      have hac : a < c := lt_trans h1 h2
      simp [bytesLe, ne_of_lt hac, hac]

/-- The comparison realised by `ORDER BY timestamp DESC`: `a` may come
before `b` iff `b.timestamp ≤ a.timestamp` in the BINARY collation
(descending order). -/
def tsRel (a b : Entry) : Prop :=
  bytesLe b.timestamp.toList a.timestamp.toList = true

instance : DecidableRel tsRel := fun a b =>
  inferInstanceAs
    (Decidable (bytesLe b.timestamp.toList a.timestamp.toList = true))

instance : IsTotal Entry tsRel :=
  ⟨fun a b => bytesLe_total b.timestamp.toList a.timestamp.toList⟩

instance : IsTrans Entry tsRel :=
  ⟨fun _ _ _ h h2 => bytesLe_trans _ _ _ h2 h⟩

/-- The rows of `s` ordered by timestamp descending. -/
def orderByTsDesc (s : List Entry) : List Entry :=
  List.insertionSort tsRel s

/-- `JournalDatabase.get_entries(limit=None, offset=0)`.  The guard in
the source is `if limit:`, Python truthiness, so both `limit=None` and
`limit=0` take the unlimited branch — which ignores `offset`. -/
def get_entries (s : List Entry) (limit : Option Nat) (offset : Nat) :
    List Entry :=
  match limit with
  | none => orderByTsDesc s
  | some 0 => orderByTsDesc s
  | some (l + 1) => ((orderByTsDesc s).drop offset).take (l + 1)

/-- Is `t` an initial segment of `s`? (character-list level). -/
def listPre : List Char → List Char → Bool
  | [], _ => true
  | _ :: _, [] => false
  | a :: ts, b :: ss => a == b && listPre ts ss

/-- Does `s` contain `t` as a contiguous run? (character-list level). -/
def listSub : List Char → List Char → Bool
  | t, [] => listPre t []
  | t, b :: rest => listPre t (b :: rest) || listSub t rest

/-- ASCII lowercasing, as SQLite `LIKE` folds A–Z case. -/
def asciiLower (s : String) : String :=
  String.mk (s.toList.map Char.toLower)

/-- `column LIKE '%term%'` with the default (ASCII case-insensitive)
`LIKE`: `term` occurs inside the value, ignoring ASCII case. -/
def likeContains (term value : String) : Bool :=
  listSub (asciiLower term).toList (asciiLower value).toList

/-- `json.dumps(tags)` for a list of plain strings (the serialized form
the tag-mode search runs `LIKE` against). -/
def jsonDumps (tags : List String) : String :=
  "[" ++ String.intercalate ", " (tags.map (fun t => "\"" ++ t ++ "\"")) ++ "]"

/-- The `search_type` argument of `search_entries`. -/
inductive SearchType where
  | text
  | tag
deriving DecidableEq

/-- `JournalDatabase.search_entries(search_term, search_type)`:
`WHERE text LIKE '%term%'` (or `tags LIKE '%term%'` against the
serialized list), then `ORDER BY timestamp DESC`. -/
def search_entries (s : List Entry) (search_term : String)
    (search_type : SearchType) : List Entry :=
  orderByTsDesc (s.filter (fun e =>
    match search_type with
    | .text => likeContains search_term e.text
    | .tag => likeContains search_term (jsonDumps e.tags)))

/-- `JournalDatabase.update_entry`: `UPDATE entries SET text, tags WHERE
id = ?`.  A missing id matches zero rows; no error is raised. -/
def update_entry (s : List Entry) (entry_id : Nat) (text : String)
    (tags : List String) : Except String (List Entry) :=
  .ok (s.map (fun e =>
    if e.id = entry_id then { e with text := text, tags := tags } else e))

/-- `JournalDatabase.remove_entry`: `DELETE FROM entries WHERE id = ?`.
A missing id matches zero rows; no error is raised. -/
def remove_entry (s : List Entry) (entry_id : Nat) :
    Except String (List Entry) :=
  .ok (s.filter (fun e => decide (e.id ≠ entry_id)))

/-- `np.abs` over the sample buffer. -/
def npAbs (l : List ℚ) : List ℚ :=
  l.map (fun x => |x|)

/-- `np.max`: raises `ValueError` on an empty array, hence `Option`. -/
def npMax : List ℚ → Option ℚ
  | [] => none
  | x :: xs => some (xs.foldl max x)

/-- The default `threshold=0.01` of `is_silent`. -/
def defaultThreshold : ℚ := 1 / 100

/-- `is_silent(audio_array, threshold)`:
`np.max(np.abs(audio_array)) < threshold`; `none` means the call raised
(empty buffer). -/
def is_silent (audio : List ℚ) (threshold : ℚ) : Option Bool :=
  (npMax (npAbs audio)).map (fun m => decide (m < threshold))

/-- Python `str.isalnum()`: non-empty and every character alphanumeric. -/
def pyIsAlnum (s : String) : Bool :=
  !s.isEmpty && s.toList.all Char.isAlphanum

/-- The token stream `extract_keywords` counts:
`[w for w in word_tokenize(text.lower()) if w not in stop_words and w.isalnum()]`.
The NLTK tokenizer and stopword list are external libraries, so both are
parameters of the embedding. -/
def filteredTokens (word_tokenize : String → List String)
    (stop_words : List String) (text : String) : List String :=
  (word_tokenize text.toLower).filter
    (fun w => !stop_words.contains w && pyIsAlnum w)

/-- The distinct elements of a list in order of first occurrence — the
key order of a Python `Counter` built by iterating the list. -/
def firstOccList : List String → List String
  | [] => []
  | w :: ws => w :: firstOccList (ws.filter (fun x => !(x == w)))
termination_by l => l.length
decreasing_by
  simpa using Nat.lt_succ_of_le (List.length_filter_le _ _)

/-- Occurrence count of `w` in the token stream (the `Counter` value). -/
def tokCount (toks : List String) (w : String) : Nat :=
  toks.count w

/-- The ranking order of `Counter.most_common`: more frequent first,
and, per its documentation, elements with equal counts in the order
first encountered (position of first occurrence in the stream). -/
def mcRel (toks : List String) (a b : String) : Prop :=
  tokCount toks b < tokCount toks a ∨
    (tokCount toks a = tokCount toks b ∧ toks.indexOf a ≤ toks.indexOf b)

instance (toks : List String) : DecidableRel (mcRel toks) := fun a b => by
  unfold mcRel
  infer_instance

instance (toks : List String) : IsTotal String (mcRel toks) := by
  constructor
  intro a b
  unfold mcRel
  omega

instance (toks : List String) : IsTrans String (mcRel toks) := by
  constructor
  intro a b c hab hbc
  unfold mcRel at hab hbc ⊢
  omega

/-- `Counter(toks).most_common(k)` (keywords only, the counts are
dropped by the caller): the distinct tokens ranked by `mcRel`, truncated
to `k`. -/
def most_common (toks : List String) (k : Nat) : List String :=
  (List.insertionSort (mcRel toks) (firstOccList toks)).take k

/-- `extract_keywords(text, num_keywords)` with the tokenizer and
stopword set as parameters. -/
def extract_keywords (word_tokenize : String → List String)
    (stop_words : List String) (text : String) (num_keywords : Nat) :
    List String :=
  most_common (filteredTokens word_tokenize stop_words text) num_keywords

/-- `[tag.strip() for tag in manual_tags.split(',')]`. -/
def pySplitTrim (s : String) : List String :=
  (s.splitOn ",").map String.trim

/-- `list(set(tags))`: deduplication.  CPython's set iteration order is
unspecified; the model fixes first-occurrence order, which only matters
up to set equality. -/
def pyListSet (l : List String) : List String :=
  firstOccList l

/-- What `model.transcribe` hands back: `result["text"]` and
`result["language"]`. -/
structure TransOut where
  text : String
  language : String

/-- Observable outcome of one run of `record_new_entry` from the point
where the audio buffer has been captured. -/
structure FlowResult where
  store : List Entry
  savedId : Option Nat
  tempCreated : Bool
  tempDeleted : Bool
  transcribeCalled : Bool
  errorReported : Option String

/-- `record_new_entry` after `record_audio` returned `audio`, as state
passing over the store.  The transcription engine's behaviour on this
run is the `transcription` parameter (`.error` = the model raised).
`none` models the uncaught `ValueError` that `is_silent` raises on an
empty buffer.  On the silent branch nothing else happens; otherwise the
temp file is written, transcription is attempted inside `try`, a
successful result is tagged and saved, and the `finally` block deletes
the temp file on both paths. -/
def record_new_entry (word_tokenize : String → List String)
    (stop_words : List String) (auto_tag : Bool) (manual_tags : String)
    (store : List Entry) (audio : List ℚ)
    (transcription : Except String TransOut) (now : String) :
    Option FlowResult :=
  match is_silent audio defaultThreshold with
  | none => none
  | some true => some ⟨store, none, false, false, false, none⟩
  | some false =>
    match transcription with
    | .ok r =>
      let auto :=
        if auto_tag then extract_keywords word_tokenize stop_words r.text 5
        else []
      let merged :=
        if manual_tags ≠ "" then auto ++ pySplitTrim manual_tags else auto
      let tags := pyListSet merged
      let res := save_entry store r.text tags now
      some ⟨res.2, some res.1, true, true, true, none⟩
    | .error e => some ⟨store, none, true, true, true, some e⟩

/-! ### Helper lemmas -/

theorem le_foldr_max (l : List Nat) (x : Nat) (h : x ∈ l) :
    x ≤ l.foldr max 0 := by
  induction l with
  | nil => cases h
  | cons a l ih =>
    rcases List.mem_cons.mp h with rfl | hx
    · exact le_max_left _ _
    · exact le_trans (ih hx) (le_max_right _ _)

theorem mem_firstOccList (l : List String) (x : String) :
    x ∈ firstOccList l ↔ x ∈ l := by
  induction l using firstOccList.induct with
  | case1 => simp [firstOccList]
  | case2 w ws ih =>
    rw [firstOccList]
    by_cases hx : x = w
    · subst hx; simp
    · simp only [List.mem_cons, ih, List.mem_filter, Bool.not_eq_true',
        beq_eq_false_iff_ne, ne_eq]
      tauto

theorem foldl_max_lt_iff (xs : List ℚ) (x t : ℚ) :
    xs.foldl max x < t ↔ x < t ∧ ∀ y ∈ xs, y < t := by
  induction xs generalizing x with
  | nil => simp
  | cons a xs ih =>
    rw [List.foldl_cons, ih, max_lt_iff]
    simp only [List.mem_cons]
    constructor
    · rintro ⟨⟨hx, ha⟩, hall⟩
      exact ⟨hx, fun y hy => hy.elim (fun h => h ▸ ha) (hall y)⟩
    · rintro ⟨hx, hall⟩
      exact ⟨⟨hx, hall a (Or.inl rfl)⟩, fun y hy => hall y (Or.inr hy)⟩

theorem is_silent_cons (x : ℚ) (xs : List ℚ) (t : ℚ) :
    is_silent (x :: xs) t = some (decide (∀ y ∈ x :: xs, |y| < t)) := by
  show some _ = some _
  congr 1
  rw [decide_eq_decide, foldl_max_lt_iff]
  simp

theorem listSub_nil (cs : List Char) : listSub [] cs = true := by
  cases cs <;> rfl

theorem likeContains_nil (v : String) : likeContains "" v = true :=
  listSub_nil _

/-! ### Claims -/

/-- C1 (amended, part 1): every id assigned by `save_entry` is strictly
greater than every id currently present in the store — so ids are
unique among live entries and increase as long as the entry holding the
largest id is not removed. -/
theorem claim1_save_assigns_fresh_id (s : List Entry) (text : String)
    (tags : List String) (ts : String) (e : Entry) (h : e ∈ s) :
    e.id < (save_entry s text tags ts).1 := by
  have hm : e.id ∈ s.map Entry.id := List.mem_map_of_mem _ h
  simpa [save_entry, nextRowId] using
    Nat.lt_succ_of_le (le_foldr_max _ _ hm)

theorem claim1_witness :
    (⟨1, "t1", "a", []⟩ : Entry) ∈ [(⟨1, "t1", "a", []⟩ : Entry)] ∧
      (⟨1, "t1", "a", []⟩ : Entry).id <
        (save_entry [⟨1, "t1", "a", []⟩] "b" [] "t2").1 :=
  ⟨by simp, claim1_save_assigns_fresh_id _ _ _ _ _ (by simp)⟩

/-- C1 counterexample: `id INTEGER PRIMARY KEY` is a rowid alias and the
table has no `AUTOINCREMENT`, so after the entry holding the largest id
(id 2) is removed, the next `save_entry` assigns id 2 again — the id is
reused. -/
theorem claim1_counterexample_id_reused :
    (save_entry (save_entry [] "a" [] "t1").2 "b" [] "t2").1 = 2 ∧
      remove_entry (save_entry (save_entry [] "a" [] "t1").2 "b" [] "t2").2 2 =
        Except.ok [⟨1, "t1", "a", []⟩] ∧
      (save_entry [⟨1, "t1", "a", []⟩] "c" [] "t3").1 = 2 :=
  ⟨rfl, rfl, rfl⟩

/-- C2 (amended): on a nonempty buffer, `is_silent` returns true iff the
maximum absolute amplitude is strictly below the threshold (any sample
with absolute value at or above the threshold forces false); on the
empty buffer the call raises (`np.max` of an empty array) instead of
returning true. -/
theorem claim2_is_silent_nonempty (audio : List ℚ) (threshold : ℚ)
    (h : audio ≠ []) :
    (is_silent audio threshold = some true ↔ ∀ x ∈ audio, |x| < threshold) ∧
      (∀ x ∈ audio, threshold ≤ |x| →
        is_silent audio threshold = some false) := by
  obtain ⟨a, l, rfl⟩ : ∃ a l, audio = a :: l := by
    cases audio with
    | nil => exact absurd rfl h
    | cons a l => exact ⟨a, l, rfl⟩
  constructor
  · rw [is_silent_cons]
    simp
  · intro x hx htx
    rw [is_silent_cons]
    have hno : ¬ ∀ y ∈ a :: l, |y| < threshold :=
      fun hall => absurd (hall x hx) (not_lt.mpr htx)
    simp only [Option.some.injEq, decide_eq_false_iff_not]
    exact hno

theorem claim2_witness :
    ((is_silent [1/2] (1/100) = some true ↔
        ∀ x ∈ [(1 : ℚ)/2], |x| < 1/100) ∧
      (∀ x ∈ [(1 : ℚ)/2], 1/100 ≤ |x| →
        is_silent [1/2] (1/100) = some false)) ∧
      is_silent [1/2] (1/100) = some false :=
  ⟨claim2_is_silent_nonempty [1/2] (1/100) (by simp),
    (claim2_is_silent_nonempty [1/2] (1/100) (by simp)).2 (1/2)
      (by simp)
      (by rw [abs_of_pos (by norm_num : (0 : ℚ) < 1/2)]; norm_num)⟩

/-- C2 counterexample: on the empty buffer `is_silent` does not return
true — `np.max` raises `ValueError` on an empty array, modelled as
`none`. -/
theorem claim2_counterexample_empty_buffer :
    is_silent [] defaultThreshold = none ∧
      is_silent [] defaultThreshold ≠ some true :=
  ⟨rfl, by simp [is_silent, npAbs, npMax]⟩

/-- C3 (amended): `get_entries` returns entries ordered by timestamp
descending, and with `limit` omitted it returns every entry; but the
`if limit:` truthiness guard means `offset` is honoured only together
with a nonzero `limit` — with `limit` omitted (or zero), `offset` is
ignored and nothing is skipped. -/
theorem claim3_get_entries_spec (s : List Entry) (l offset : Nat)
    (hl : l ≠ 0) :
    List.Sorted tsRel (get_entries s none offset) ∧
      (∀ e, e ∈ get_entries s none offset ↔ e ∈ s) ∧
      get_entries s none offset = get_entries s none 0 ∧
      List.Sorted tsRel (get_entries s (some l) offset) ∧
      get_entries s (some l) offset =
        ((get_entries s none 0).drop offset).take l := by
  obtain ⟨k, rfl⟩ := Nat.exists_eq_succ_of_ne_zero hl
  refine ⟨List.sorted_insertionSort tsRel s,
    fun e => List.mem_insertionSort tsRel, rfl, ?_, rfl⟩
  exact List.Pairwise.sublist
    ((List.take_sublist _ _).trans (List.drop_sublist _ _))
    (List.sorted_insertionSort tsRel s)

theorem claim3_witness :
    get_entries [⟨1, "t1", "a", []⟩, ⟨2, "t3", "b", []⟩, ⟨3, "t2", "c", []⟩]
        none 0 =
      [⟨2, "t3", "b", []⟩, ⟨3, "t2", "c", []⟩, ⟨1, "t1", "a", []⟩] ∧
      (List.Sorted tsRel
          (get_entries [⟨1, "t1", "a", []⟩, ⟨2, "t3", "b", []⟩,
            ⟨3, "t2", "c", []⟩] none 1) ∧
        (∀ e, e ∈ get_entries [⟨1, "t1", "a", []⟩, ⟨2, "t3", "b", []⟩,
            ⟨3, "t2", "c", []⟩] none 1 ↔
          e ∈ [⟨1, "t1", "a", []⟩, ⟨2, "t3", "b", []⟩, ⟨3, "t2", "c", []⟩]) ∧
        get_entries [⟨1, "t1", "a", []⟩, ⟨2, "t3", "b", []⟩,
            ⟨3, "t2", "c", []⟩] none 1 =
          get_entries [⟨1, "t1", "a", []⟩, ⟨2, "t3", "b", []⟩,
            ⟨3, "t2", "c", []⟩] none 0 ∧
        List.Sorted tsRel
          (get_entries [⟨1, "t1", "a", []⟩, ⟨2, "t3", "b", []⟩,
            ⟨3, "t2", "c", []⟩] (some 2) 1) ∧
        get_entries [⟨1, "t1", "a", []⟩, ⟨2, "t3", "b", []⟩,
            ⟨3, "t2", "c", []⟩] (some 2) 1 =
          ((get_entries [⟨1, "t1", "a", []⟩, ⟨2, "t3", "b", []⟩,
            ⟨3, "t2", "c", []⟩] none 0).drop 1).take 2) :=
  ⟨by decide, claim3_get_entries_spec _ 2 1 (by decide)⟩

/-- C3 counterexample: with `limit` omitted, `offset` is ignored — a
two-entry store listed with `offset = 1` still returns both entries
instead of skipping the most recent one. -/
theorem claim3_counterexample_offset_ignored :
    get_entries [⟨1, "t1", "a", []⟩, ⟨2, "t2", "b", []⟩] none 1 =
      [⟨2, "t2", "b", []⟩, ⟨1, "t1", "a", []⟩] ∧
      get_entries [⟨1, "t1", "a", []⟩, ⟨2, "t2", "b", []⟩] none 1 ≠
        [⟨1, "t1", "a", []⟩] := by
  refine ⟨by decide, ?_⟩
  intro hcontra
  exact absurd ((by decide :
    get_entries [⟨1, "t1", "a", []⟩, ⟨2, "t2", "b", []⟩] none 1 =
      [⟨2, "t2", "b", []⟩, ⟨1, "t1", "a", []⟩]).symm.trans hcontra)
    (by decide)

/-- C4 (amended): `update_entry` and `remove_entry` on an id that is not
present leave the store unchanged, but they signal no error at all —
the UPDATE/DELETE simply matches zero rows (so removing the same id
twice silently succeeds the second time), rather than raising an
"entry not found" condition. -/
theorem claim4_missing_id_silent_noop (s : List Entry) (id0 : Nat)
    (text : String) (tags : List String) (h : ∀ e ∈ s, e.id ≠ id0) :
    update_entry s id0 text tags = Except.ok s ∧
      remove_entry s id0 = Except.ok s := by
  constructor
  · unfold update_entry
    congr 1
    have hfix : ∀ e ∈ s,
        (if e.id = id0 then { e with text := text, tags := tags } else e) =
          e := fun e he => if_neg (h e he)
    calc s.map _ = s.map id := List.map_congr_left hfix
    _ = s := List.map_id s
  · unfold remove_entry
    congr 1
    exact List.filter_eq_self.mpr fun e he => by simp [h e he]

theorem claim4_witness :
    update_entry [⟨1, "t1", "a", []⟩] 2 "x" ["y"] =
        Except.ok [⟨1, "t1", "a", []⟩] ∧
      remove_entry [⟨1, "t1", "a", []⟩] 2 = Except.ok [⟨1, "t1", "a", []⟩] :=
  claim4_missing_id_silent_noop _ 2 "x" ["y"] (by decide)

/-- C4 counterexample: the claimed `EntryNotFound` signal does not
exist — updating or removing a missing id completes normally with the
store unchanged, and removing the same id a second time (store now
empty) also completes normally. -/
theorem claim4_counterexample_no_error_signaled :
    remove_entry (save_entry [] "a" [] "t1").2 1 = Except.ok [] ∧
      remove_entry [] 1 = Except.ok [] ∧
      update_entry [] 1 "x" [] = Except.ok [] :=
  ⟨rfl, rfl, rfl⟩

/-- C5: updating an existing entry replaces only its `text` and `tags`;
its `id` and `timestamp` are untouched, the store keeps its length, and
every entry whose id differs is unchanged. -/
theorem claim5_update_frame (s : List Entry) (id0 : Nat) (text : String)
    (tags : List String) (i : Nat) (e : Entry) (h : s[i]? = some e) :
    ∃ l2, update_entry s id0 text tags = Except.ok l2 ∧
      l2.length = s.length ∧
      (e.id = id0 → l2[i]? = some ⟨e.id, e.timestamp, text, tags⟩) ∧
      (e.id ≠ id0 → l2[i]? = some e) := by
  refine ⟨_, rfl, by simp [update_entry], ?_, ?_⟩
  · intro hid
    simp [update_entry, List.getElem?_map, h, hid]
  · intro hid
    simp [update_entry, List.getElem?_map, h, hid]

theorem claim5_witness :
    ∃ l2, update_entry [⟨1, "t1", "a", ["x"]⟩, ⟨2, "t2", "b", []⟩] 1
        "new" ["y"] = Except.ok l2 ∧
      l2.length = 2 ∧
      ((1 : Nat) = 1 → l2[0]? = some ⟨1, "t1", "new", ["y"]⟩) ∧
      ((1 : Nat) ≠ 1 → l2[0]? = some ⟨1, "t1", "a", ["x"]⟩) :=
  claim5_update_frame [⟨1, "t1", "a", ["x"]⟩, ⟨2, "t2", "b", []⟩] 1
    "new" ["y"] 0 ⟨1, "t1", "a", ["x"]⟩ rfl

/-- C6: `save_entry` followed by an unlimited `get_entries` yields an
entry (the one with the freshly assigned id) whose text is exactly the
saved text and whose tags, viewed as a set, equal the deduplicated
input tags. -/
theorem claim6_save_list_roundtrip (s : List Entry) (text : String)
    (tags : List String) (ts : String) :
    ∃ e, e ∈ get_entries (save_entry s text tags ts).2 none 0 ∧
      e.id = (save_entry s text tags ts).1 ∧
      e.text = text ∧
      (∀ t, t ∈ e.tags ↔ t ∈ firstOccList tags) := by
  refine ⟨⟨nextRowId s, ts, text, tags⟩, ?_, rfl, rfl,
    fun t => (mem_firstOccList tags t).symm⟩
  show _ ∈ orderByTsDesc _
  rw [orderByTsDesc, List.mem_insertionSort]
  simp [save_entry]

/-- C7: `extract_keywords` (for any tokenizer and stopword set) returns
at most `k` tokens; each returned token is not a stopword, passes
`isalnum`, and is a token of the lowercased text; the result is ordered
by descending frequency with ties broken by first-occurrence order in
the (filtered) token stream; and repeated calls on identical input give
the identical ordered result. -/
theorem claim7_extract_keywords_spec (word_tokenize : String → List String)
    (stop_words : List String) (text : String) (k : Nat) :
    (extract_keywords word_tokenize stop_words text k).length ≤ k ∧
      (∀ w ∈ extract_keywords word_tokenize stop_words text k,
        w ∉ stop_words ∧ pyIsAlnum w = true ∧ w ∈ word_tokenize text.toLower) ∧
      List.Sorted (mcRel (filteredTokens word_tokenize stop_words text))
        (extract_keywords word_tokenize stop_words text k) ∧
      extract_keywords word_tokenize stop_words text k =
        extract_keywords word_tokenize stop_words text k := by
  refine ⟨List.length_take_le _ _, ?_, ?_, rfl⟩
  · intro w hw
    have h1 : w ∈ filteredTokens word_tokenize stop_words text := by
      have h2 := List.mem_of_mem_take hw
      rw [List.mem_insertionSort] at h2
      exact (mem_firstOccList _ _).mp h2
    rw [filteredTokens, List.mem_filter, Bool.and_eq_true,
      Bool.not_eq_true'] at h1
    refine ⟨?_, h1.2.2, h1.1⟩
    have hstop := h1.2.1
    simp at hstop
    exact hstop
  · exact List.Pairwise.sublist (List.take_sublist _ _)
      (List.sorted_insertionSort _ _)

/-- C8: on a non-silent recording, if the transcription engine raises,
the flow catches the error, reports it with its cause, leaves the store
untouched (no entry persisted), and still deletes the temporary audio
file; the temporary file is deleted on the success path as well. -/
theorem claim8_transcription_failure_cleanup
    (word_tokenize : String → List String) (stop_words : List String)
    (auto_tag : Bool) (manual_tags : String) (store : List Entry)
    (audio : List ℚ) (now : String)
    (h : is_silent audio defaultThreshold = some false) :
    (∀ err, record_new_entry word_tokenize stop_words auto_tag manual_tags
        store audio (.error err) now =
      some ⟨store, none, true, true, true, some err⟩) ∧
      (∀ r, ∃ res, record_new_entry word_tokenize stop_words auto_tag
          manual_tags store audio (.ok r) now = some res ∧
        res.tempCreated = true ∧ res.tempDeleted = true) := by
  constructor
  · intro err
    simp [record_new_entry, h]
  · intro r
    simp only [record_new_entry, h]
    exact ⟨_, rfl, rfl, rfl⟩

theorem claim8_witness :
    record_new_entry (fun _ => []) [] false "" [] [1] (.error "boom") "t" =
        some ⟨[], none, true, true, true, some "boom"⟩ ∧
      ∃ res, record_new_entry (fun _ => []) [] false "" [] [1]
          (.ok ⟨"hi", "en"⟩) "t" = some res ∧
        res.tempCreated = true ∧ res.tempDeleted = true :=
  ⟨(claim8_transcription_failure_cleanup (fun _ => []) [] false "" [] [1]
      "t" (by rw [is_silent_cons]; simp [defaultThreshold]; norm_num)).1
      "boom",
    (claim8_transcription_failure_cleanup (fun _ => []) [] false "" [] [1]
      "t" (by rw [is_silent_cons]; simp [defaultThreshold]; norm_num)).2
      ⟨"hi", "en"⟩⟩

/-- C9: on a buffer classified as silent, the flow aborts immediately:
the transcription engine is never invoked, no temporary audio file is
created, and the store is left untouched (no entry saved). -/
theorem claim9_silent_aborts (word_tokenize : String → List String)
    (stop_words : List String) (auto_tag : Bool) (manual_tags : String)
    (store : List Entry) (audio : List ℚ)
    (transcription : Except String TransOut) (now : String)
    (h : is_silent audio defaultThreshold = some true) :
    record_new_entry word_tokenize stop_words auto_tag manual_tags store
        audio transcription now =
      some ⟨store, none, false, false, false, none⟩ := by
  simp [record_new_entry, h]

theorem claim9_witness :
    record_new_entry (fun _ => []) [] true "tag1" [⟨1, "t1", "a", []⟩] [0]
        (.ok ⟨"hi", "en"⟩) "t2" =
      some ⟨[⟨1, "t1", "a", []⟩], none, false, false, false, none⟩ :=
  claim9_silent_aborts (fun _ => []) [] true "tag1" [⟨1, "t1", "a", []⟩]
    [0] (.ok ⟨"hi", "en"⟩) "t2"
    (by rw [is_silent_cons]; simp [defaultThreshold])

/-- C10: searching with the empty string returns every entry in the
store, ordered by timestamp descending, in both text mode and tag mode
(the `LIKE '%%'` pattern matches any value). -/
theorem claim10_empty_search_returns_all (s : List Entry)
    (mode : SearchType) :
    (∀ e, e ∈ search_entries s "" mode ↔ e ∈ s) ∧
      List.Sorted tsRel (search_entries s "" mode) := by
  have hall : s.filter (fun e =>
      match mode with
      | .text => likeContains "" e.text
      | .tag => likeContains "" (jsonDumps e.tags)) = s :=
    List.filter_eq_self.mpr fun e _ => by
      cases mode <;> simp [likeContains_nil]
  rw [search_entries, hall]
  exact ⟨fun e => List.mem_insertionSort tsRel,
    List.sorted_insertionSort tsRel s⟩

end WorkJournal
